import Mathlib

/-!
Verification of the RNA-seq statistical analysis engine
(`src/utils/statisticalAnalysis.ts`, class `RNASeqAnalyzer`).

The TypeScript source computes over IEEE-754 doubles; we embed it over the
real numbers `ℝ`.  Division is the total field division of `ℝ` (so `x / 0 = 0`
rather than the JavaScript `NaN`/`Infinity`); wherever a claim is about the
production or propagation of non-finite values we additionally use an
`Option ℝ`-valued rendering of the same source function (suffix `JS`), in
which `none` stands for a non-finite double (`NaN` or `±Infinity`).

Method bodies are translated line by line; helper lambdas that the source
writes inline (the per-row geometric mean, the per-cell VST transform, the
per-gene differential-expression body, which is textually identical in the
sync and async variants) are given names so that theorems can speak about
them.
-/

namespace RNASeq

/-- `Sample` record from `src/types` (`interface Sample`). -/
structure Sample where
  id : String
  name : String
  condition : String
  replicate : ℕ
  batch : String
  librarySize : ℝ
  mappingRate : ℝ
  rnaIntegrity : ℝ
  sequencingDepth : ℝ

/-- `GeneExpression` record from `src/types` (`interface GeneExpression`).
The count map `Record<string, number>` is modelled as an association list;
the optional computed fields are `Option ℝ` (absent = `none`). -/
structure GeneExpression where
  geneId : String
  geneName : String
  samples : List (String × ℝ)
  log2FoldChange : Option ℝ
  pValue : Option ℝ
  adjustedPValue : Option ℝ

/-- `buildCountMatrix` (statisticalAnalysis.ts:34-38):
`geneExpression.map(gene => sampleNames.map(n => gene.samples[n] || 0))`.
A sample name absent from the gene's count map yields 0 (`undefined || 0`);
a present value of 0 also yields 0 via `|| 0`, which coincides with the
stored value, so `Option.getD _ 0` is an exact rendering. -/
def buildCountMatrix (sampleNames : List String) (geneExpression : List GeneExpression) :
    List (List ℝ) :=
  geneExpression.map fun gene =>
    sampleNames.map fun sampleName => (gene.samples.lookup sampleName).getD 0

/-- Per-row body of `calculateGeometricMeans` (statisticalAnalysis.ts:58-64):
filter the strictly positive counts; if none, return 0; otherwise
`exp(sum of logs / count)` (`reduce((s,c) => s + Math.log c, 0)` is the sum). -/
noncomputable def geometricMeanRow (geneRow : List ℝ) : ℝ :=
  let nonZeroCounts := geneRow.filter fun count => decide (0 < count)
  if nonZeroCounts.length = 0 then 0
  else Real.exp ((nonZeroCounts.map Real.log).sum / nonZeroCounts.length)

/-- `calculateGeometricMeans` (statisticalAnalysis.ts:57-65). -/
noncomputable def calculateGeometricMeans (countMatrix : List (List ℝ)) : List ℝ :=
  countMatrix.map geometricMeanRow

/-- The `validRatios` computation inside `calculateSizeFactors`
(statisticalAnalysis.ts:69-75): for one sample index, map over the gene rows
paired with their geometric means, keep `count / geomMean` exactly when
`geomMean > 0 && count > 0` (the source produces `null` otherwise and filters
the `null`s out; `filterMap` over the zip renders both steps).  A JavaScript
out-of-range access `geneRow[sampleIndex]` gives `undefined`, for which the
guard `count > 0` is false; `List.getD _ _ 0` likewise fails the guard. -/
noncomputable def validRatios (countMatrix : List (List ℝ)) (geometricMeans : List ℝ)
    (sampleIndex : ℕ) : List ℝ :=
  (countMatrix.zip geometricMeans).filterMap fun p =>
    if 0 < p.2 ∧ 0 < p.1.getD sampleIndex 0 then some (p.1.getD sampleIndex 0 / p.2) else none

/-- `median` (statisticalAnalysis.ts:83-89): sort ascending (the source sorts a
copy with `(a, b) => a - b`), then average the two middle elements for even
length, middle element for odd length.  On the empty list the source reads
`sorted[-1]` and `sorted[0]`, both `undefined`, and returns `NaN`; here the
out-of-range reads default to 0 and the result is 0 — the `Option`-valued
rendering `medianJS` below tracks that degenerate case faithfully. -/
noncomputable def median (arr : List ℝ) : ℝ :=
  let sorted := arr.mergeSort fun a b => decide (a ≤ b)
  let mid := sorted.length / 2
  if sorted.length % 2 = 0 then (sorted.getD (mid - 1) 0 + sorted.getD mid 0) / 2
  else sorted.getD mid 0

/-- `calculateSizeFactors` (statisticalAnalysis.ts:67-81): one median of valid
ratios per sample (the source maps over `this.samples` using only the index;
`numSamples = samples.length`). -/
noncomputable def calculateSizeFactors (countMatrix : List (List ℝ)) (geometricMeans : List ℝ)
    (numSamples : ℕ) : List ℝ :=
  (List.range numSamples).map fun sampleIndex =>
    median (validRatios countMatrix geometricMeans sampleIndex)

/-- `Option`-valued rendering of `median`, tracking the JavaScript result on
the empty list: `([].sort())[-1] + ([].sort())[0]` is `NaN` (`none`).  On a
non-empty list the JavaScript value is finite and equals `median`. -/
noncomputable def medianJS (arr : List ℝ) : Option ℝ :=
  if arr = [] then none else some (median arr)

/-- `Option`-valued rendering of `calculateSizeFactors`: a sample with no
valid ratios receives the `NaN` median of the empty list (`none`). -/
noncomputable def calculateSizeFactorsJS (countMatrix : List (List ℝ)) (geometricMeans : List ℝ)
    (numSamples : ℕ) : List (Option ℝ) :=
  (List.range numSamples).map fun sampleIndex =>
    medianJS (validRatios countMatrix geometricMeans sampleIndex)

/-- JavaScript division of a finite count by a (possibly non-finite) size
factor: dividing by `NaN` gives `NaN`, and dividing by `±0` gives `±Infinity`
(or `NaN` for `0/0`) — all non-finite, tracked as `none`. -/
noncomputable def jsDiv (count : ℝ) : Option ℝ → Option ℝ
  | none => none
  | some sf => if sf = 0 then none else some (count / sf)

/-- `Option`-valued rendering of the normalization step inside
`normalizeCountsDESeq2` (statisticalAnalysis.ts:49-51):
`countMatrix.map(row => row.map((count, i) => count / sizeFactors[i]))`,
tracking non-finite size factors through the division. -/
noncomputable def normalizeCountsJS (countMatrix : List (List ℝ))
    (sizeFactors : List (Option ℝ)) : List (List (Option ℝ)) :=
  countMatrix.map fun geneRow =>
    geneRow.mapIdx fun sampleIndex count => jsDiv count (sizeFactors.getD sampleIndex none)

/-- `calculateVariance` (statisticalAnalysis.ts:177-181): population variance,
mean of squared deviations from the mean (divide by `values.length`, not
`length - 1`). -/
noncomputable def calculateVariance (values : List ℝ) : ℝ :=
  let mean := values.sum / values.length
  (values.map fun val => (val - mean) ^ 2).sum / values.length

/-- `erf` (statisticalAnalysis.ts:344-360): the Abramowitz–Stegun rational
approximation with coefficients a1 = 0.254829592, a2 = −0.284496736,
a3 = 1.421413741, a4 = −1.453152027, a5 = 1.061405429, p = 0.3275911;
`sign = x >= 0 ? 1 : -1`, `x := |x|`, `t = 1/(1 + p·x)`,
`y = 1 − (((((a5·t + a4)·t) + a3)·t + a2)·t + a1)·t·exp(−x·x)`. -/
noncomputable def erf (x : ℝ) : ℝ :=
  let sign : ℝ := if 0 ≤ x then 1 else -1
  let ax := |x|
  let t : ℝ := 1.0 / (1.0 + 0.3275911 * ax)
  sign * (1.0 -
    (((((1.061405429 * t - 1.453152027) * t) + 1.421413741) * t - 0.284496736) * t
        + 0.254829592) * t * Real.exp (-(ax * ax)))

/-- `normalCDF` (statisticalAnalysis.ts:339-342): `0.5 * (1 + erf(x / √2))`. -/
noncomputable def normalCDF (x : ℝ) : ℝ :=
  0.5 * (1 + erf (x / Real.sqrt 2))

/-- `calculatePValue` (statisticalAnalysis.ts:321-337): pooled standard error
from the population variances; p-value 1.0 when it vanishes, otherwise
`max(0.001, 2·(1 − Φ(|mean1 − mean2| / SE)))`.  (`reduce((s,v) => s+v, 0) /
length` is `sum / length`; on an empty group JavaScript would give `NaN`,
while here `x / 0 = 0` — the engine only calls this with non-empty groups.) -/
noncomputable def calculatePValue (group1 group2 : List ℝ) : ℝ :=
  let mean1 := group1.sum / group1.length
  let mean2 := group2.sum / group2.length
  let var1 := calculateVariance group1
  let var2 := calculateVariance group2
  let pooledSE := Real.sqrt (var1 / group1.length + var2 / group2.length)
  if pooledSE = 0 then 1.0
  else max 0.001 (2 * (1 - normalCDF (|mean1 - mean2| / pooledSE)))

/-- `adjustPValue` (statisticalAnalysis.ts:362-366): `Math.min(1.0, pValue * 1.1)`. -/
noncomputable def adjustPValue (pValue : ℝ) : ℝ :=
  min 1.0 (pValue * 1.1)

/-- Engine state: the private fields of class `RNASeqAnalyzer`
(statisticalAnalysis.ts:7-14). -/
structure RNASeqAnalyzer where
  samples : List Sample
  geneExpression : List GeneExpression
  countMatrix : List (List ℝ)
  geneNames : List String
  sampleNames : List String
  normalizedCountsCache : Option (List (List ℝ))
  vstDataCache : Option (List (List ℝ))

/-- The constructor (statisticalAnalysis.ts:16-26): stores the inputs, derives
the name vectors and the count matrix; both caches start `null`. -/
def RNASeqAnalyzer.create (samples : List Sample) (geneExpression : List GeneExpression) :
    RNASeqAnalyzer where
  samples := samples
  geneExpression := geneExpression
  countMatrix := buildCountMatrix (samples.map fun s => s.name) geneExpression
  geneNames := geneExpression.map fun g => g.geneName
  sampleNames := samples.map fun s => s.name
  normalizedCountsCache := none
  vstDataCache := none

/-- `normalizeCountsDESeq2` (statisticalAnalysis.ts:41-55), with the cache
mutation made explicit: returns the matrix together with the post-call engine
state.  A populated cache (any array, even empty, is truthy) is returned
as-is; otherwise the normalized matrix is computed and stored.  Division here
is total real division (`count / 0 = 0`); `normalizeCountsJS` tracks the
non-finite cases. -/
noncomputable def RNASeqAnalyzer.normalizeCountsDESeq2 (a : RNASeqAnalyzer) :
    List (List ℝ) × RNASeqAnalyzer :=
  match a.normalizedCountsCache with
  | some cached => (cached, a)
  | none =>
    let geometricMeans := calculateGeometricMeans a.countMatrix
    let sizeFactors := calculateSizeFactors a.countMatrix geometricMeans a.samples.length
    let normalizedCounts := a.countMatrix.map fun geneRow =>
      geneRow.mapIdx fun sampleIndex count => count / sizeFactors.getD sampleIndex 0
    (normalizedCounts, { a with normalizedCountsCache := some normalizedCounts })

/-- Per-cell body of `varianceStabilizingTransform`
(statisticalAnalysis.ts:100-104): 0 below 0.5, else `log2(count + 0.5)`. -/
noncomputable def vstCell (count : ℝ) : ℝ :=
  if count < 0.5 then 0 else Real.logb 2 (count + 0.5)

/-- `varianceStabilizingTransform` (statisticalAnalysis.ts:92-109) with the
cache mutation made explicit. -/
noncomputable def RNASeqAnalyzer.varianceStabilizingTransform (a : RNASeqAnalyzer) :
    List (List ℝ) × RNASeqAnalyzer :=
  match a.vstDataCache with
  | some cached => (cached, a)
  | none =>
    let nc := a.normalizeCountsDESeq2
    let vstData := nc.1.map fun geneRow => geneRow.map vstCell
    (vstData, { nc.2 with vstDataCache := some vstData })

/-- Per-gene body of the differential-expression batch loop
(statisticalAnalysis.ts:210-233; the async variant's body at 277-300 is
textually identical).  Group counts are read from the normalized matrix row
of the gene at `sampleNames.indexOf(sample.name)`; means are floored at 0.1
before the log2 fold change; the result is an object spread copying the gene
record with the three computed fields set. -/
noncomputable def computeGeneDE (group1Samples group2Samples : List Sample)
    (sampleNames : List String) (normalizedCounts : List (List ℝ))
    (geneIndex : ℕ) (gene : GeneExpression) : GeneExpression :=
  let group1Counts := group1Samples.map fun s =>
    (normalizedCounts.getD geneIndex []).getD (sampleNames.indexOf s.name) 0
  let group2Counts := group2Samples.map fun s =>
    (normalizedCounts.getD geneIndex []).getD (sampleNames.indexOf s.name) 0
  let mean1 := group1Counts.sum / group1Counts.length
  let mean2 := group2Counts.sum / group2Counts.length
  let adjustedMean1 := max mean1 0.1
  let adjustedMean2 := max mean2 0.1
  let log2FoldChange := Real.logb 2 (adjustedMean2 / adjustedMean1)
  let pValue := calculatePValue group1Counts group2Counts
  { gene with
    log2FoldChange := some log2FoldChange
    pValue := some pValue
    adjustedPValue := some (adjustPValue pValue) }

/-- The batch loop shared by `performDifferentialExpression` (batch size 100,
statisticalAnalysis.ts:204-242) and `performDifferentialExpressionAsync`
(batch size 50, statisticalAnalysis.ts:271-313): slice the gene list into
consecutive chunks, map the per-gene body over each chunk with the global
gene index `i + batchIndex`, and concatenate in order.  The cooperative
`await` between batches only yields the thread and is not modelled. -/
def chunkedMapIdx {α β : Type _} (batchSize : ℕ) (hbs : 0 < batchSize)
    (f : ℕ → α → β) (i : ℕ) (l : List α) : List β :=
  if h : l.length = 0 then []
  else
    (List.mapIdx (fun batchIndex g => f (i + batchIndex) g) (l.take batchSize)) ++
      chunkedMapIdx batchSize hbs f (i + batchSize) (l.drop batchSize)
termination_by l.length
decreasing_by
  simp only [List.length_drop]
  exact Nat.sub_lt (Nat.pos_of_ne_zero h) hbs

/-- `performDifferentialExpression` (statisticalAnalysis.ts:184-248).  The
thrown error is modelled as `Except.error`; the pair's second component is
the post-call engine state (the error is thrown before any state is touched,
so the input state is returned unchanged there). -/
noncomputable def RNASeqAnalyzer.performDifferentialExpression (a : RNASeqAnalyzer)
    (groupingFunction : Sample → String) (group1Value group2Value : String) :
    Except String (List GeneExpression) × RNASeqAnalyzer :=
  let group1Samples := a.samples.filter fun s => groupingFunction s == group1Value
  let group2Samples := a.samples.filter fun s => groupingFunction s == group2Value
  if group1Samples.length = 0 ∨ group2Samples.length = 0 then
    (Except.error "Both conditions must have at least one sample", a)
  else
    let nc := a.normalizeCountsDESeq2
    let results := chunkedMapIdx 100 (by norm_num)
      (computeGeneDE group1Samples group2Samples a.sampleNames nc.1) 0 a.geneExpression
    (Except.ok results, nc.2)

/-- `performDifferentialExpressionAsync` (statisticalAnalysis.ts:251-319):
identical to the sync variant except for batch size 50 and the per-batch
cooperative yield / progress logging, which do not affect the data. -/
noncomputable def RNASeqAnalyzer.performDifferentialExpressionAsync (a : RNASeqAnalyzer)
    (groupingFunction : Sample → String) (group1Value group2Value : String) :
    Except String (List GeneExpression) × RNASeqAnalyzer :=
  let group1Samples := a.samples.filter fun s => groupingFunction s == group1Value
  let group2Samples := a.samples.filter fun s => groupingFunction s == group2Value
  if group1Samples.length = 0 ∨ group2Samples.length = 0 then
    (Except.error "Both conditions must have at least one sample", a)
  else
    let nc := a.normalizeCountsDESeq2
    let results := chunkedMapIdx 50 (by norm_num)
      (computeGeneDE group1Samples group2Samples a.sampleNames nc.1) 0 a.geneExpression
    (Except.ok results, nc.2)

/-- Indexed map starting at offset `i`: reference form of the chunked batch
loop, used to relate the batch-size-100 and batch-size-50 computations. -/
def mapFrom {α β : Type _} (f : ℕ → α → β) : ℕ → List α → List β
  | _, [] => []
  | i, g :: gs => f i g :: mapFrom f (i + 1) gs

/-! ## Concrete fixtures used by witnesses and counterexamples -/

def sampleX1 : Sample := ⟨"s1", "s1", "X", 1, "b1", 0, 0, 0, 0⟩

def sampleX2 : Sample := ⟨"s2", "s2", "X", 2, "b1", 0, 0, 0, 0⟩

def geneA : GeneExpression := ⟨"g1", "GeneA", [("s1", 5)], none, none, none⟩

def analyzerOne : RNASeqAnalyzer := RNASeqAnalyzer.create [sampleX1] []

def analyzerTwo : RNASeqAnalyzer := RNASeqAnalyzer.create [sampleX1, sampleX2] []

/-! ## Helper lemmas -/

lemma mapIdx_eq_mapFrom {α β : Type _} (f : ℕ → α → β) (i : ℕ) (l : List α) :
    List.mapIdx (fun b g => f (i + b) g) l = mapFrom f i l := by
  induction l generalizing i with
  | nil => rfl
  | cons g gs ih =>
    simp only [List.mapIdx_cons, mapFrom, Nat.add_zero]
    congr 1
    have h1 : (fun b (g : α) => f (i + (b + 1)) g) = fun b g => f (i + 1 + b) g := by
      funext b g
      congr 1
      omega
    rw [h1, ih]

lemma mapFrom_take_drop {α β : Type _} (f : ℕ → α → β) (bs : ℕ) :
    ∀ (i : ℕ) (l : List α),
      mapFrom f i (l.take bs) ++ mapFrom f (i + bs) (l.drop bs) = mapFrom f i l := by
  induction bs with
  | zero => intro i l; simp [mapFrom]
  | succ bs ih =>
    intro i l
    cases l with
    | nil => simp [mapFrom]
    | cons g gs =>
      simp only [List.take_succ_cons, List.drop_succ_cons, mapFrom, List.cons_append]
      congr 1
      have h2 : i + (bs + 1) = i + 1 + bs := by omega
      rw [h2, ih]

lemma chunkedMapIdx_eq_mapFrom {α β : Type _} (bs : ℕ) (hbs : 0 < bs) (f : ℕ → α → β)
    (i : ℕ) (l : List α) : chunkedMapIdx bs hbs f i l = mapFrom f i l := by
  have H : ∀ (n : ℕ) (l : List α) (i : ℕ), l.length ≤ n →
      chunkedMapIdx bs hbs f i l = mapFrom f i l := by
    intro n
    induction n with
    | zero =>
      intro l i hl
      have hnil : l = [] := List.length_eq_zero.mp (Nat.le_zero.mp hl)
      subst hnil
      rw [chunkedMapIdx]
      simp [mapFrom]
    | succ n ih =>
      intro l i hl
      rw [chunkedMapIdx]
      by_cases h : l.length = 0
      · rw [dif_pos h]
        have hnil : l = [] := List.length_eq_zero.mp h
        subst hnil
        rfl
      · rw [dif_neg h]
        rw [mapIdx_eq_mapFrom,
          ih (l.drop bs) (i + bs) (by simp only [List.length_drop]; omega)]
        exact mapFrom_take_drop f bs i l
  exact H l.length l i le_rfl

lemma map_geneName_mapFrom (f : ℕ → GeneExpression → GeneExpression)
    (hf : ∀ i g, (f i g).geneName = g.geneName) (i : ℕ) (l : List GeneExpression) :
    (mapFrom f i l).map (fun g => g.geneName) = l.map fun g => g.geneName := by
  induction l generalizing i with
  | nil => rfl
  | cons g gs ih => simp [mapFrom, hf, ih]

lemma computeGeneDE_geneName (group1Samples group2Samples : List Sample)
    (sampleNames : List String) (normalizedCounts : List (List ℝ))
    (geneIndex : ℕ) (gene : GeneExpression) :
    (computeGeneDE group1Samples group2Samples sampleNames normalizedCounts
      geneIndex gene).geneName = gene.geneName := rfl

/-- The error branch of both differential-expression variants: an empty
partition short-circuits to the fixed error string before normalization or
any per-gene work, leaving the engine state untouched. -/
lemma performDE_error_of_empty (a : RNASeqAnalyzer) (groupingFunction : Sample → String)
    (group1Value group2Value : String)
    (h : (a.samples.filter fun s => groupingFunction s == group1Value).length = 0 ∨
         (a.samples.filter fun s => groupingFunction s == group2Value).length = 0) :
    a.performDifferentialExpression groupingFunction group1Value group2Value =
      (Except.error "Both conditions must have at least one sample", a) ∧
    a.performDifferentialExpressionAsync groupingFunction group1Value group2Value =
      (Except.error "Both conditions must have at least one sample", a) := by
  constructor
  · simp only [RNASeqAnalyzer.performDifferentialExpression]
    rw [if_pos h]
  · simp only [RNASeqAnalyzer.performDifferentialExpressionAsync]
    rw [if_pos h]

/-- The success branch of the sync variant, with the returned results and
post-state made explicit. -/
lemma performDE_ok_of_nonempty (a : RNASeqAnalyzer) (groupingFunction : Sample → String)
    (group1Value group2Value : String)
    (h1 : (a.samples.filter fun s => groupingFunction s == group1Value).length ≠ 0)
    (h2 : (a.samples.filter fun s => groupingFunction s == group2Value).length ≠ 0) :
    a.performDifferentialExpression groupingFunction group1Value group2Value =
      (Except.ok (chunkedMapIdx 100 (by norm_num)
        (computeGeneDE (a.samples.filter fun s => groupingFunction s == group1Value)
          (a.samples.filter fun s => groupingFunction s == group2Value)
          a.sampleNames a.normalizeCountsDESeq2.1) 0 a.geneExpression),
       a.normalizeCountsDESeq2.2) := by
  simp only [RNASeqAnalyzer.performDifferentialExpression]
  rw [if_neg (not_or.mpr ⟨h1, h2⟩)]

/-- The success branch of the async variant. -/
lemma performDEAsync_ok_of_nonempty (a : RNASeqAnalyzer) (groupingFunction : Sample → String)
    (group1Value group2Value : String)
    (h1 : (a.samples.filter fun s => groupingFunction s == group1Value).length ≠ 0)
    (h2 : (a.samples.filter fun s => groupingFunction s == group2Value).length ≠ 0) :
    a.performDifferentialExpressionAsync groupingFunction group1Value group2Value =
      (Except.ok (chunkedMapIdx 50 (by norm_num)
        (computeGeneDE (a.samples.filter fun s => groupingFunction s == group1Value)
          (a.samples.filter fun s => groupingFunction s == group2Value)
          a.sampleNames a.normalizeCountsDESeq2.1) 0 a.geneExpression),
       a.normalizeCountsDESeq2.2) := by
  simp only [RNASeqAnalyzer.performDifferentialExpressionAsync]
  rw [if_neg (not_or.mpr ⟨h1, h2⟩)]

lemma normalizeCountsDESeq2_frame (a : RNASeqAnalyzer) :
    (a.normalizeCountsDESeq2.2).samples = a.samples ∧
    (a.normalizeCountsDESeq2.2).geneExpression = a.geneExpression ∧
    (a.normalizeCountsDESeq2.2).countMatrix = a.countMatrix ∧
    (a.normalizeCountsDESeq2.2).geneNames = a.geneNames ∧
    (a.normalizeCountsDESeq2.2).sampleNames = a.sampleNames ∧
    (a.normalizeCountsDESeq2.2).vstDataCache = a.vstDataCache := by
  unfold RNASeqAnalyzer.normalizeCountsDESeq2
  cases h : a.normalizedCountsCache <;> simp

/-- The Horner-evaluated Abramowitz–Stegun quintic is at most 1 on `[0, 1]`:
`1 − q(t) = (1 − t)·r(t) + 10⁻⁹` with `r` nonnegative on `[0, 1]`. -/
lemma hornerPoly_le_one {t : ℝ} (h0 : 0 ≤ t) (h1 : t ≤ 1) :
    (((((1.061405429 * t - 1.453152027) * t) + 1.421413741) * t - 0.284496736) * t
        + 0.254829592) * t ≤ 1 := by
  have ht2 : (0:ℝ) ≤ 1.029667143 - 0.391746598 * t := by nlinarith
  have hr : (0:ℝ) ≤ 1.061405429 * t ^ 4 - 0.391746598 * t ^ 3 + 1.029667143 * t ^ 2
      + 0.745170407 * t + 0.999999999 := by
    nlinarith [pow_nonneg h0 4, mul_nonneg (mul_nonneg h0 h0) ht2]
  nlinarith [mul_nonneg (sub_nonneg.mpr h1) hr]

/-- The approximated error function is nonnegative on nonnegative inputs. -/
lemma erf_nonneg {x : ℝ} (hx : 0 ≤ x) : 0 ≤ erf x := by
  unfold erf
  simp only [abs_of_nonneg hx, if_pos hx, one_mul]
  set t : ℝ := 1.0 / (1.0 + 0.3275911 * x) with ht
  have hden : (0:ℝ) < 1.0 + 0.3275911 * x := by nlinarith
  have ht0 : 0 ≤ t := by rw [ht]; positivity
  have ht1 : t ≤ 1 := by
    rw [ht, div_le_one hden]
    nlinarith
  have hq := hornerPoly_le_one ht0 ht1
  have hexp1 : Real.exp (-(x * x)) ≤ 1 := Real.exp_le_one_iff.mpr (by nlinarith)
  have hexp0 : 0 < Real.exp (-(x * x)) := Real.exp_pos _
  rcases le_or_lt ((((((1.061405429 * t - 1.453152027) * t) + 1.421413741) * t
      - 0.284496736) * t + 0.254829592) * t) 0 with hq0 | hq0
  · nlinarith
  · nlinarith [mul_le_mul_of_nonneg_left hexp1 (le_of_lt hq0)]

/-- For nonnegative arguments the approximated normal CDF is at least 1/2. -/
lemma normalCDF_ge_half {x : ℝ} (hx : 0 ≤ x) : 1 / 2 ≤ normalCDF x := by
  unfold normalCDF
  have h := erf_nonneg (div_nonneg hx (Real.sqrt_nonneg 2))
  nlinarith

/-- Range of either branch of `calculatePValue`. -/
lemma pvalue_branch_range (m1 m2 SE : ℝ) (hSE : 0 ≤ SE) :
    0.001 ≤ (if SE = 0 then (1.0:ℝ) else max 0.001 (2 * (1 - normalCDF (|m1 - m2| / SE)))) ∧
    (if SE = 0 then (1.0:ℝ) else max 0.001 (2 * (1 - normalCDF (|m1 - m2| / SE)))) ≤ 1 := by
  by_cases h : SE = 0
  · rw [if_pos h]
    constructor <;> norm_num
  · rw [if_neg h]
    refine ⟨le_max_left _ _, max_le (by norm_num) ?_⟩
    have hphi := normalCDF_ge_half (div_nonneg (abs_nonneg (m1 - m2)) hSE)
    linarith

/-- `calculatePValue` always lands in `[0.001, 1]`. -/
lemma calculatePValue_range (group1 group2 : List ℝ) :
    0.001 ≤ calculatePValue group1 group2 ∧ calculatePValue group1 group2 ≤ 1 := by
  unfold calculatePValue
  exact pvalue_branch_range _ _ _ (Real.sqrt_nonneg _)

/-- Exact value of the approximated error function at 0: the coefficient sum
is 0.999999999, so the approximation misses 0 by exactly 10⁻⁹. -/
lemma erf_zero_eq : erf 0 = 0.000000001 := by
  unfold erf
  norm_num [Real.exp_zero]

/-- The approximated error function at 5 is within 10⁻⁶ of 1. -/
lemma erf_five_close : |erf 5 - 1| ≤ 0.000001 := by
  unfold erf
  have h5 : (0:ℝ) ≤ 5 := by norm_num
  have habs : |(5:ℝ)| = 5 := by norm_num
  simp only [habs, if_pos h5, one_mul]
  set t5 : ℝ := 1.0 / (1.0 + 0.3275911 * 5) with ht5
  set QQ : ℝ := (((((1.061405429 * t5 - 1.453152027) * t5) + 1.421413741) * t5
      - 0.284496736) * t5 + 0.254829592) * t5 with hQQ
  clear_value QQ t5
  have hQ0 : (0:ℝ) ≤ QQ := by rw [hQQ, ht5]; norm_num
  have hQ1 : QQ ≤ 1 := by rw [hQQ, ht5]; norm_num
  have hE0 : 0 < Real.exp (-(5 * 5) : ℝ) := Real.exp_pos _
  have hneg : Real.exp (-(5 * 5) : ℝ) = (Real.exp 25)⁻¹ := by
    rw [show (-(5 * 5) : ℝ) = -25 by norm_num, Real.exp_neg]
  have h2exp : (2:ℝ) < Real.exp 1 := lt_trans (by norm_num) Real.exp_one_gt_d9
  have h25 : Real.exp (25:ℝ) = Real.exp 1 ^ (25:ℕ) := by
    rw [← Real.exp_nat_mul]
    norm_num
  have hpow : (2:ℝ) ^ (25:ℕ) ≤ Real.exp 25 := by
    rw [h25]
    exact pow_le_pow_left₀ (by norm_num) (le_of_lt h2exp) 25
  have hE : Real.exp (-(5 * 5) : ℝ) ≤ ((2:ℝ) ^ (25:ℕ))⁻¹ := by
    rw [hneg]
    exact inv_anti₀ (by positivity) hpow
  have hprod0 : 0 ≤ QQ * Real.exp (-(5 * 5) : ℝ) := mul_nonneg hQ0 (le_of_lt hE0)
  have hprod1 : QQ * Real.exp (-(5 * 5) : ℝ) ≤ 1 * ((2:ℝ) ^ (25:ℕ))⁻¹ :=
    mul_le_mul hQ1 hE (le_of_lt hE0) zero_le_one
  have hsmall : (1:ℝ) * ((2:ℝ) ^ (25:ℕ))⁻¹ ≤ 0.000001 := by norm_num
  have hgoal : (1.0:ℝ) - QQ * Real.exp (-(5 * 5)) - 1 = -(QQ * Real.exp (-(5 * 5))) := by
    norm_num
  rw [abs_le, hgoal]
  constructor
  · exact neg_le_neg (le_trans hprod1 hsmall)
  · exact le_trans (neg_nonpos.mpr hprod0) (by norm_num)

/-- Every element of a `validRatios` list is strictly positive: each is
`count / geomMean` with both strictly positive by the guard. -/
lemma validRatios_pos (countMatrix : List (List ℝ)) (geometricMeans : List ℝ)
    (sampleIndex : ℕ) : ∀ r ∈ validRatios countMatrix geometricMeans sampleIndex, 0 < r := by
  intro r hr
  unfold validRatios at hr
  rcases List.mem_filterMap.mp hr with ⟨p, _, heq⟩
  by_cases hcond : 0 < p.2 ∧ 0 < p.1.getD sampleIndex 0
  · rw [if_pos hcond] at heq
    rw [← Option.some.inj heq]
    exact div_pos hcond.2 hcond.1
  · rw [if_neg hcond] at heq
    exact absurd heq (by simp)

/-- A row with at least one positive count has a strictly positive geometric
mean (the exponential of a real number). -/
lemma geometricMeanRow_pos {row : List ℝ} (hex : ∃ c ∈ row, 0 < c) :
    0 < geometricMeanRow row := by
  unfold geometricMeanRow
  rcases hex with ⟨c, hc, hcpos⟩
  have hmem : c ∈ row.filter fun count => decide (0 < count) :=
    List.mem_filter.mpr ⟨hc, by simpa using hcpos⟩
  have hne : (row.filter fun count => decide (0 < count)).length ≠ 0 :=
    Nat.pos_iff_ne_zero.mp (List.length_pos.mpr (List.ne_nil_of_mem hmem))
  rw [if_neg hne]
  exact Real.exp_pos _

/-- The median of a non-empty list of positive reals is positive: both middle
elements of the sorted copy are elements of the list. -/
lemma median_pos {l : List ℝ} (hne : l ≠ []) (hpos : ∀ x ∈ l, 0 < x) : 0 < median l := by
  unfold median
  have hlen : (l.mergeSort fun a b => decide (a ≤ b)).length = l.length :=
    List.length_mergeSort l
  have hlpos : 0 < (l.mergeSort fun a b => decide (a ≤ b)).length := by
    rw [hlen]
    exact List.length_pos.mpr hne
  have hmem : ∀ x ∈ l.mergeSort fun a b => decide (a ≤ b), 0 < x :=
    fun x hx => hpos x (List.mem_mergeSort.mp hx)
  have hmid : (l.mergeSort fun a b => decide (a ≤ b)).length / 2 <
      (l.mergeSort fun a b => decide (a ≤ b)).length :=
    Nat.div_lt_self hlpos (by norm_num)
  by_cases hpar : (l.mergeSort fun a b => decide (a ≤ b)).length % 2 = 0
  · rw [if_pos hpar]
    have hmid1 : (l.mergeSort fun a b => decide (a ≤ b)).length / 2 - 1 <
        (l.mergeSort fun a b => decide (a ≤ b)).length :=
      lt_of_le_of_lt (Nat.sub_le _ _) hmid
    rw [List.getD_eq_getElem _ _ hmid1, List.getD_eq_getElem _ _ hmid]
    have h1 := hmem _ (List.getElem_mem hmid1)
    have h2 := hmem _ (List.getElem_mem hmid)
    linarith
  · rw [if_neg hpar]
    rw [List.getD_eq_getElem _ _ hmid]
    exact hmem _ (List.getElem_mem hmid)

/-- A gene row of length `n` whose counts are all positive contributes a
valid ratio to every sample index below `n`, so no sample's ratio list is
empty. -/
lemma validRatios_nonempty_of_pos_row (countMatrix : List (List ℝ)) (row : List ℝ)
    (n sampleIndex : ℕ) (hmem : row ∈ countMatrix) (hlen : row.length = n)
    (hpos : ∀ c ∈ row, 0 < c) (hs : sampleIndex < n) :
    validRatios countMatrix (calculateGeometricMeans countMatrix) sampleIndex ≠ [] := by
  have hslen : sampleIndex < row.length := hlen ▸ hs
  have hcel : row.getD sampleIndex 0 ∈ row := by
    rw [List.getD_eq_getElem _ _ hslen]
    exact List.getElem_mem hslen
  have hcpos : 0 < row.getD sampleIndex 0 := hpos _ hcel
  have hgm : 0 < geometricMeanRow row := geometricMeanRow_pos ⟨_, hcel, hcpos⟩
  have hzip : countMatrix.zip (countMatrix.map geometricMeanRow) =
      countMatrix.map fun r => (r, geometricMeanRow r) := by
    have := List.zip_map' id geometricMeanRow countMatrix
    simpa using this
  have hpair : (row, geometricMeanRow row) ∈
      countMatrix.zip (countMatrix.map geometricMeanRow) := by
    rw [hzip]
    exact List.mem_map_of_mem _ hmem
  have hval : (row.getD sampleIndex 0 / geometricMeanRow row) ∈
      validRatios countMatrix (calculateGeometricMeans countMatrix) sampleIndex := by
    unfold validRatios calculateGeometricMeans
    exact List.mem_filterMap.mpr ⟨(row, geometricMeanRow row), hpair,
      by rw [if_pos ⟨hgm, hcpos⟩]⟩
  exact List.ne_nil_of_mem hval

/-- `List.mapIdx` is `mapFrom` at offset 0. -/
lemma mapIdx_eq_mapFrom_zero {α β : Type _} (f : ℕ → α → β) (l : List α) :
    List.mapIdx f l = mapFrom f 0 l := by
  have := mapIdx_eq_mapFrom f 0 l
  simpa using this

/-- Dividing an all-zero row by well-defined non-zero size factors yields an
all-`some 0` row, independent of the size-factor values. -/
lemma mapFrom_jsDiv_zero (sizeFactors : List (Option ℝ)) :
    ∀ (row : List ℝ) (i : ℕ),
      (∀ c ∈ row, c = 0) →
      (∀ s, i ≤ s → s < i + row.length →
        ∃ x, sizeFactors.getD s none = some x ∧ x ≠ 0) →
      mapFrom (fun s c => jsDiv c (sizeFactors.getD s none)) i row =
        List.replicate row.length (some 0) := by
  intro row
  induction row with
  | nil => intro i _ _; rfl
  | cons c cs ih =>
    intro i hz hsf
    simp only [List.length_cons] at hsf
    rcases hsf i le_rfl (by omega) with ⟨x, hx, hxne⟩
    have hc : c = 0 := hz c (List.mem_cons_self c cs)
    simp only [mapFrom, List.length_cons, List.replicate_succ]
    congr 1
    · rw [hx]
      simp only [jsDiv]
      rw [if_neg hxne, hc, zero_div]
    · exact ih (i + 1) (fun d hd => hz d (List.mem_cons_of_mem c hd))
        (fun s hs1 hs2 => hsf s (by omega) (by omega))

/-- Evaluation: the geometric means of the matrix `[[1, 0]]`. -/
lemma geomMeans_one_zero : calculateGeometricMeans [[(1:ℝ), 0]] = [1] := by
  unfold calculateGeometricMeans geometricMeanRow
  have h1 : (decide ((0:ℝ) < 1)) = true := decide_eq_true (by norm_num)
  have h0 : (decide ((0:ℝ) < 0)) = false := decide_eq_false (by norm_num)
  simp [h1, h0, Real.log_one, Real.exp_zero]

/-- Evaluation: sample 0 of `[[1, 0]]` has the single valid ratio 1. -/
lemma validRatios_one_zero_s0 : validRatios [[(1:ℝ), 0]] [1] 0 = [1] := by
  unfold validRatios
  have hcond : (0:ℝ) < 1 ∧ (0:ℝ) < ([(1:ℝ), 0].getD 0 0) := by norm_num
  simp [List.filterMap_cons, if_pos hcond]

/-- Evaluation: sample 1 of `[[1, 0]]` has no valid ratios. -/
lemma validRatios_one_zero_s1 : validRatios [[(1:ℝ), 0]] [1] 1 = [] := by
  unfold validRatios
  have hcond : ¬((0:ℝ) < 1 ∧ (0:ℝ) < ([(1:ℝ), 0].getD 1 0)) := by norm_num
  simp [List.filterMap_cons, if_neg hcond]

lemma median_singleton (x : ℝ) : median [x] = x := by
  unfold median
  rw [List.mergeSort_singleton]
  norm_num

/-- Evaluation: size factors of `[[1, 0]]` — sample 1's is `NaN` (`none`). -/
lemma sizeFactorsJS_one_zero :
    calculateSizeFactorsJS [[(1:ℝ), 0]] (calculateGeometricMeans [[(1:ℝ), 0]]) 2 =
      [some 1, none] := by
  rw [geomMeans_one_zero]
  unfold calculateSizeFactorsJS medianJS
  have hr : List.range 2 = [0, 1] := by decide
  rw [hr]
  simp [validRatios_one_zero_s0, validRatios_one_zero_s1, median_singleton]

/-- Evaluation: the `NaN` size factor propagates into the normalized matrix. -/
lemma normalizeJS_one_zero :
    normalizeCountsJS [[(1:ℝ), 0]] [some 1, none] = [[some 1, none]] := by
  unfold normalizeCountsJS
  simp only [List.map_cons, List.map_nil, List.mapIdx_cons, List.mapIdx_nil]
  norm_num [jsDiv]

/-! ## Claim theorems -/

/-- Claim C9: for every input and grouping, the batched synchronous
differential-expression computation (batch size 100) and the async variant
(batch size 50) produce identical per-gene results — chunking and the
cooperative yields do not alter any computed value — and the gene order of a
successful result matches the input gene order. -/
theorem de_sync_async_agree (a : RNASeqAnalyzer) (groupingFunction : Sample → String)
    (group1Value group2Value : String) :
    a.performDifferentialExpression groupingFunction group1Value group2Value =
      a.performDifferentialExpressionAsync groupingFunction group1Value group2Value ∧
    ∀ results,
      (a.performDifferentialExpression groupingFunction group1Value group2Value).1 =
        Except.ok results →
      results.map (fun g => g.geneName) = a.geneExpression.map fun g => g.geneName := by
  constructor
  · simp only [RNASeqAnalyzer.performDifferentialExpression,
      RNASeqAnalyzer.performDifferentialExpressionAsync, chunkedMapIdx_eq_mapFrom]
  · intro results h
    simp only [RNASeqAnalyzer.performDifferentialExpression, chunkedMapIdx_eq_mapFrom] at h
    by_cases hc : (a.samples.filter fun s => groupingFunction s == group1Value).length = 0 ∨
        (a.samples.filter fun s => groupingFunction s == group2Value).length = 0
    · rw [if_pos hc] at h
      exact absurd h (by simp)
    · rw [if_neg hc] at h
      simp only [Except.ok.injEq] at h
      subst h
      apply map_geneName_mapFrom
      intro i g
      rfl

/-- Claim C9 witness: on a concrete engine (one sample, no genes) the sync
and async runs coincide and a successful result preserves gene order. -/
theorem de_sync_async_agree_witness :
    analyzerOne.performDifferentialExpression (fun s => s.condition) "X" "X" =
      analyzerOne.performDifferentialExpressionAsync (fun s => s.condition) "X" "X" ∧
    ([] : List GeneExpression).map (fun g => g.geneName) =
      analyzerOne.geneExpression.map fun g => g.geneName :=
  ⟨(de_sync_async_agree analyzerOne (fun s => s.condition) "X" "X").1,
    (de_sync_async_agree analyzerOne (fun s => s.condition) "X" "X").2 []
      (by
        simp only [RNASeqAnalyzer.performDifferentialExpression, chunkedMapIdx_eq_mapFrom]
        rw [if_neg (by decide)]
        rfl)⟩

/-- Claim C1 (amended): if either requested group partition is empty, both
differential-expression variants fail with the fixed hard error
"Both conditions must have at least one sample" — a message that does not
include the group sizes — no result is produced, and the engine state is
returned unchanged. -/
theorem de_empty_group_error (a : RNASeqAnalyzer) (groupingFunction : Sample → String)
    (group1Value group2Value : String)
    (h : (a.samples.filter fun s => groupingFunction s == group1Value).length = 0 ∨
         (a.samples.filter fun s => groupingFunction s == group2Value).length = 0) :
    a.performDifferentialExpression groupingFunction group1Value group2Value =
      (Except.error "Both conditions must have at least one sample", a) ∧
    a.performDifferentialExpressionAsync groupingFunction group1Value group2Value =
      (Except.error "Both conditions must have at least one sample", a) :=
  performDE_error_of_empty a groupingFunction group1Value group2Value h

/-- Claim C1 witness: a concrete contrast whose first group is empty fails
with the fixed error and leaves the concrete engine unchanged. -/
theorem de_empty_group_error_witness :
    analyzerOne.performDifferentialExpression (fun s => s.condition) "A" "X" =
      (Except.error "Both conditions must have at least one sample", analyzerOne) ∧
    analyzerOne.performDifferentialExpressionAsync (fun s => s.condition) "A" "X" =
      (Except.error "Both conditions must have at least one sample", analyzerOne) :=
  de_empty_group_error analyzerOne (fun s => s.condition) "A" "X" (Or.inl (by decide))

/-- Claim C1 counterexample: the error is the same fixed string for runs
whose group sizes differ (sizes (0,1) versus (0,2)), so no decoding of the
reported error can recover both group sizes — the error is not "reported to
the caller with both group sizes". -/
theorem de_error_lacks_group_sizes :
    (analyzerOne.performDifferentialExpression (fun s => s.condition) "A" "X").1 =
      Except.error "Both conditions must have at least one sample" ∧
    (analyzerTwo.performDifferentialExpression (fun s => s.condition) "A" "X").1 =
      Except.error "Both conditions must have at least one sample" ∧
    (analyzerOne.samples.filter fun s => s.condition == "X").length = 1 ∧
    (analyzerTwo.samples.filter fun s => s.condition == "X").length = 2 ∧
    ¬∃ dec : String → ℕ × ℕ,
        ∀ (b : RNASeqAnalyzer) (f : Sample → String) (v1 v2 e : String),
          (b.performDifferentialExpression f v1 v2).1 = Except.error e →
          dec e = ((b.samples.filter fun s => f s == v1).length,
                   (b.samples.filter fun s => f s == v2).length) := by
  have hone : (analyzerOne.performDifferentialExpression (fun s => s.condition) "A" "X").1 =
      Except.error "Both conditions must have at least one sample" := by
    rw [(performDE_error_of_empty analyzerOne (fun s => s.condition) "A" "X"
      (Or.inl (by decide))).1]
  have htwo : (analyzerTwo.performDifferentialExpression (fun s => s.condition) "A" "X").1 =
      Except.error "Both conditions must have at least one sample" := by
    rw [(performDE_error_of_empty analyzerTwo (fun s => s.condition) "A" "X"
      (Or.inl (by decide))).1]
  refine ⟨hone, htwo, by decide, by decide, ?_⟩
  rintro ⟨dec, hdec⟩
  have e1 := hdec analyzerOne (fun s => s.condition) "A" "X" _ hone
  have e2 := hdec analyzerTwo (fun s => s.condition) "A" "X" _ htwo
  rw [e1] at e2
  have : ((0 : ℕ), (1 : ℕ)) = ((0 : ℕ), (2 : ℕ)) := by
    calc ((0 : ℕ), (1 : ℕ))
        = ((analyzerOne.samples.filter fun s => s.condition == "A").length,
           (analyzerOne.samples.filter fun s => s.condition == "X").length) := by decide
      _ = ((analyzerTwo.samples.filter fun s => s.condition == "A").length,
           (analyzerTwo.samples.filter fun s => s.condition == "X").length) := e2
      _ = ((0 : ℕ), (2 : ℕ)) := by decide
  simp at this

/-- Claim C10: a successful differential-expression run returns fresh result
records and leaves the engine's stored samples, gene-expression records,
count matrix, name orderings and VST cache unchanged — the only field the
run may change is the lazily populated normalized-counts cache (the
post-state is exactly the state after `normalizeCountsDESeq2`). -/
theorem de_run_frame (a : RNASeqAnalyzer) (groupingFunction : Sample → String)
    (group1Value group2Value : String)
    (h1 : (a.samples.filter fun s => groupingFunction s == group1Value).length ≠ 0)
    (h2 : (a.samples.filter fun s => groupingFunction s == group2Value).length ≠ 0) :
    (∃ results, a.performDifferentialExpression groupingFunction group1Value group2Value =
        (Except.ok results, a.normalizeCountsDESeq2.2)) ∧
    (∃ results, a.performDifferentialExpressionAsync groupingFunction group1Value group2Value =
        (Except.ok results, a.normalizeCountsDESeq2.2)) ∧
    (a.normalizeCountsDESeq2.2).samples = a.samples ∧
    (a.normalizeCountsDESeq2.2).geneExpression = a.geneExpression ∧
    (a.normalizeCountsDESeq2.2).countMatrix = a.countMatrix ∧
    (a.normalizeCountsDESeq2.2).geneNames = a.geneNames ∧
    (a.normalizeCountsDESeq2.2).sampleNames = a.sampleNames ∧
    (a.normalizeCountsDESeq2.2).vstDataCache = a.vstDataCache := by
  have hfr := normalizeCountsDESeq2_frame a
  exact ⟨⟨_, performDE_ok_of_nonempty a groupingFunction group1Value group2Value h1 h2⟩,
    ⟨_, performDEAsync_ok_of_nonempty a groupingFunction group1Value group2Value h1 h2⟩,
    hfr.1, hfr.2.1, hfr.2.2.1, hfr.2.2.2.1, hfr.2.2.2.2.1, hfr.2.2.2.2.2⟩

/-- Claim C10 witness: on a concrete engine with a non-empty contrast the
frame property holds. -/
theorem de_run_frame_witness :
    (∃ results, analyzerOne.performDifferentialExpression (fun s => s.condition) "X" "X" =
        (Except.ok results, analyzerOne.normalizeCountsDESeq2.2)) ∧
    (analyzerOne.normalizeCountsDESeq2.2).samples = analyzerOne.samples ∧
    (analyzerOne.normalizeCountsDESeq2.2).geneExpression = analyzerOne.geneExpression :=
  ⟨(de_run_frame analyzerOne (fun s => s.condition) "X" "X" (by decide) (by decide)).1,
    (de_run_frame analyzerOne (fun s => s.condition) "X" "X" (by decide) (by decide)).2.2.1,
    (de_run_frame analyzerOne (fun s => s.condition) "X" "X" (by decide) (by decide)).2.2.2.1⟩

/-- Claim C2: the per-gene p-value is 1.0 when the pooled standard error
`sqrt(var1/n1 + var2/n2)` (population variances) vanishes, and otherwise
`max(0.001, 2·(1 − Φ(t)))` with `t = |mean1 − mean2| / SE` and Φ the
Abramowitz–Stegun normal CDF (`normalCDF`/`erf` above carry the specified
coefficients); in every case the result lies in `[0.001, 1]`.  (Stated for
all groups, hence in particular for non-empty ones.) -/
theorem calculatePValue_spec (group1 group2 : List ℝ) :
    calculatePValue group1 group2 =
      (if Real.sqrt (calculateVariance group1 / group1.length +
            calculateVariance group2 / group2.length) = 0 then 1.0
       else max 0.001 (2 * (1 - normalCDF (|group1.sum / group1.length -
              group2.sum / group2.length| /
            Real.sqrt (calculateVariance group1 / group1.length +
              calculateVariance group2 / group2.length))))) ∧
    0.001 ≤ calculatePValue group1 group2 ∧ calculatePValue group1 group2 ≤ 1 :=
  ⟨rfl, calculatePValue_range group1 group2⟩

/-- Claim C8: the adjusted p-value is exactly `min(1.0, p × 1.1)` — a fixed
linear inflation, not a rank-based Benjamini–Hochberg procedure — and for
every p-value produced by the test it lies in `[0, 1]`. -/
theorem adjustPValue_spec (group1 group2 : List ℝ) :
    adjustPValue (calculatePValue group1 group2) =
      min 1.0 (calculatePValue group1 group2 * 1.1) ∧
    0 ≤ adjustPValue (calculatePValue group1 group2) ∧
    adjustPValue (calculatePValue group1 group2) ≤ 1 := by
  have h := calculatePValue_range group1 group2
  refine ⟨rfl, ?_, ?_⟩
  · unfold adjustPValue
    have hp : 0 ≤ calculatePValue group1 group2 * 1.1 := by nlinarith [h.1]
    exact le_min (by norm_num) hp
  · unfold adjustPValue
    exact le_trans (min_le_left _ _) (by norm_num)

/-- Claim C5 (amended): the error-function approximation has
`erf(0) = 10⁻⁹` exactly (the Abramowitz–Stegun coefficient sum is
0.999999999, so the value at 0 is not exactly 0, though it is within 10⁻⁸
of 0), and `erf(5)` is within 10⁻⁶ of 1.0. -/
theorem erf_endpoint_values :
    erf 0 = 0.000000001 ∧ |erf 0 - 0| ≤ 0.00000001 ∧ |erf 5 - 1| ≤ 0.000001 :=
  ⟨erf_zero_eq, by
    rw [erf_zero_eq, sub_zero, abs_of_nonneg (by norm_num)]
    norm_num, erf_five_close⟩

/-- Claim C5 counterexample: `erf(0)` is not exactly 0 (it is 10⁻⁹). -/
theorem erf_zero_ne_zero : erf 0 ≠ 0 := by
  rw [erf_zero_eq]
  norm_num

/-- Claim C6: the built count matrix has one row per gene and one column per
sample, and `matrix[g][s]` equals the gene's stored count for sample name
`sampleNames[s]` when that name is present in the gene's count map, and 0
when it is absent — no error is raised for absent names. -/
theorem buildCountMatrix_roundtrip (sampleNames : List String)
    (geneExpression : List GeneExpression) (g s : ℕ)
    (hg : g < geneExpression.length) (hs : s < sampleNames.length) :
    (buildCountMatrix sampleNames geneExpression).length = geneExpression.length ∧
    (∀ row ∈ buildCountMatrix sampleNames geneExpression,
      row.length = sampleNames.length) ∧
    (∀ v, (geneExpression.get ⟨g, hg⟩).samples.lookup (sampleNames.get ⟨s, hs⟩) = some v →
      ((buildCountMatrix sampleNames geneExpression).getD g []).getD s 0 = v) ∧
    ((geneExpression.get ⟨g, hg⟩).samples.lookup (sampleNames.get ⟨s, hs⟩) = none →
      ((buildCountMatrix sampleNames geneExpression).getD g []).getD s 0 = 0) := by
  have hrow : (buildCountMatrix sampleNames geneExpression).getD g [] =
      sampleNames.map fun sampleName =>
        ((geneExpression.get ⟨g, hg⟩).samples.lookup sampleName).getD 0 := by
    unfold buildCountMatrix
    rw [List.getD_eq_getElem _ _ (by simpa using hg), List.getElem_map]
    simp [List.get_eq_getElem]
  have key : ((buildCountMatrix sampleNames geneExpression).getD g []).getD s 0 =
      ((geneExpression.get ⟨g, hg⟩).samples.lookup (sampleNames.get ⟨s, hs⟩)).getD 0 := by
    rw [hrow, List.getD_eq_getElem _ _ (by simpa using hs), List.getElem_map]
    simp [List.get_eq_getElem]
  refine ⟨by simp [buildCountMatrix], ?_, ?_, ?_⟩
  · intro row hrow
    unfold buildCountMatrix at hrow
    rcases List.mem_map.mp hrow with ⟨gene, _, hgene⟩
    rw [← hgene]
    simp
  · intro v hv
    rw [key, hv]
    rfl
  · intro hnone
    rw [key, hnone]
    rfl

/-- Claim C6 witness: for a gene whose count map lists only sample "s1",
column "s2" of the count matrix is silently filled with 0, and column "s1"
carries the stored count 5. -/
theorem buildCountMatrix_roundtrip_witness :
    (0:ℕ) < ([geneA] : List GeneExpression).length ∧
    (1:ℕ) < (["s1", "s2"] : List String).length ∧
    ((buildCountMatrix ["s1", "s2"] [geneA]).getD 0 []).getD 1 0 = 0 ∧
    ((buildCountMatrix ["s1", "s2"] [geneA]).getD 0 []).getD 0 0 = 5 :=
  ⟨by norm_num, by norm_num,
    (buildCountMatrix_roundtrip ["s1", "s2"] [geneA] 0 1 (by norm_num)
        (by norm_num)).2.2.2 rfl,
    (buildCountMatrix_roundtrip ["s1", "s2"] [geneA] 0 0 (by norm_num)
        (by norm_num)).2.2.1 5 rfl⟩

/-- Claim C7: on a fresh engine the variance-stabilizing transform is purely
elementwise over the normalized matrix; per cell it is exactly 0 below 0.5
and `log2(count + 0.5)` from 0.5 on, it is non-decreasing for counts ≥ 0.5,
and every output value is nonnegative. -/
theorem vst_elementwise (a : RNASeqAnalyzer) (hc : a.vstDataCache = none) :
    a.varianceStabilizingTransform.1 =
      a.normalizeCountsDESeq2.1.map (fun geneRow => geneRow.map vstCell) ∧
    (∀ count : ℝ, count < 0.5 → vstCell count = 0) ∧
    (∀ count : ℝ, 0.5 ≤ count → vstCell count = Real.logb 2 (count + 0.5)) ∧
    (∀ c₁ c₂ : ℝ, 0.5 ≤ c₁ → c₁ ≤ c₂ → vstCell c₁ ≤ vstCell c₂) ∧
    (∀ count : ℝ, 0 ≤ vstCell count) := by
  refine ⟨?_, ?_, ?_, ?_, ?_⟩
  · unfold RNASeqAnalyzer.varianceStabilizingTransform
    rw [hc]
  · intro count hcount
    unfold vstCell
    rw [if_pos hcount]
  · intro count hcount
    unfold vstCell
    rw [if_neg (not_lt.mpr hcount)]
  · intro c₁ c₂ h₁ h₁₂
    unfold vstCell
    rw [if_neg (not_lt.mpr h₁), if_neg (not_lt.mpr (le_trans h₁ h₁₂))]
    exact Real.logb_le_logb_of_le (by norm_num) (by linarith) (by linarith)
  · intro count
    unfold vstCell
    by_cases hcount : count < 0.5
    · rw [if_pos hcount]
    · rw [if_neg hcount]
      exact Real.logb_nonneg (by norm_num) (by push_neg at hcount; linarith)

/-- Claim C7 witness: the fresh concrete engine (whose VST cache is `none`)
satisfies the elementwise description. -/
theorem vst_elementwise_witness :
    analyzerOne.varianceStabilizingTransform.1 =
      analyzerOne.normalizeCountsDESeq2.1.map (fun geneRow => geneRow.map vstCell) ∧
    vstCell 0.25 = 0 ∧ (0:ℝ) ≤ vstCell 3 :=
  ⟨(vst_elementwise analyzerOne rfl).1,
    (vst_elementwise analyzerOne rfl).2.1 0.25 (by norm_num),
    (vst_elementwise analyzerOne rfl).2.2.2.2 3⟩

/-- Claim C3: if at least one gene has a strictly positive count in every
sample (a full-length, all-positive row), then every size factor is finite
and strictly positive: in the non-finite-tracking rendering each is
`some x` with `0 < x`, and in the real-valued rendering each is positive.
That gene's positive geometric mean puts one ratio into every sample's
valid-ratio list, and the median of a non-empty list of positive reals is
positive. -/
theorem sizeFactors_finite_pos (countMatrix : List (List ℝ)) (n : ℕ)
    (hex : ∃ row ∈ countMatrix, row.length = n ∧ ∀ c ∈ row, 0 < c) :
    (∀ sf ∈ calculateSizeFactorsJS countMatrix (calculateGeometricMeans countMatrix) n,
      ∃ x, sf = some x ∧ 0 < x) ∧
    (∀ sf ∈ calculateSizeFactors countMatrix (calculateGeometricMeans countMatrix) n,
      0 < sf) := by
  rcases hex with ⟨row, hmem, hlen, hpos⟩
  constructor
  · intro sf hsf
    unfold calculateSizeFactorsJS at hsf
    rcases List.mem_map.mp hsf with ⟨s, hsrange, heq⟩
    have hs : s < n := List.mem_range.mp hsrange
    have hne := validRatios_nonempty_of_pos_row countMatrix row n s hmem hlen hpos hs
    have hmedian := median_pos hne
      (validRatios_pos countMatrix (calculateGeometricMeans countMatrix) s)
    refine ⟨median (validRatios countMatrix (calculateGeometricMeans countMatrix) s),
      ?_, hmedian⟩
    rw [← heq]
    unfold medianJS
    rw [if_neg hne]
  · intro sf hsf
    unfold calculateSizeFactors at hsf
    rcases List.mem_map.mp hsf with ⟨s, hsrange, heq⟩
    have hs : s < n := List.mem_range.mp hsrange
    have hne := validRatios_nonempty_of_pos_row countMatrix row n s hmem hlen hpos hs
    have hmedian := median_pos hne
      (validRatios_pos countMatrix (calculateGeometricMeans countMatrix) s)
    rw [← heq]
    exact hmedian

/-- Claim C3 witness: the one-gene matrix `[[2]]` has all-positive counts, and
its size factor is finite and positive. -/
theorem sizeFactors_finite_pos_witness :
    (∃ row ∈ ([[(2:ℝ)]] : List (List ℝ)), row.length = 1 ∧ ∀ c ∈ row, 0 < c) ∧
    (∀ sf ∈ calculateSizeFactorsJS [[(2:ℝ)]] (calculateGeometricMeans [[(2:ℝ)]]) 1,
      ∃ x, sf = some x ∧ 0 < x) ∧
    (∀ sf ∈ calculateSizeFactors [[(2:ℝ)]] (calculateGeometricMeans [[(2:ℝ)]]) 1,
      0 < sf) := by
  have hex : ∃ row ∈ ([[(2:ℝ)]] : List (List ℝ)), row.length = 1 ∧ ∀ c ∈ row, 0 < c := by
    refine ⟨[2], by simp, by simp, ?_⟩
    intro c hc
    simp at hc
    rw [hc]
    norm_num
  exact ⟨hex, (sizeFactors_finite_pos [[(2:ℝ)]] 1 hex).1,
    (sizeFactors_finite_pos [[(2:ℝ)]] 1 hex).2⟩

/-- Claim C4 (amended): a gene with no valid ratios is one with no strictly
positive count (for nonnegative count data, an all-zero row: any positive
count makes that gene's geometric mean positive and yields a valid ratio).
Whenever every sample's size factor is a well-defined non-zero value, such a
gene's normalized row is identically zero, independent of the size-factor
values — a silent, size-factor-independent zero.  The code performs no
defensive flooring, however: a sample with no valid ratios receives the NaN
median of an empty ratio list as its size factor, and that NaN propagates
into the normalized matrix (see `sizeFactors_nan_not_floored`). -/
theorem gene_without_ratios_zero_row (countMatrix : List (List ℝ))
    (sizeFactors : List (Option ℝ)) (g : ℕ) (hg : g < countMatrix.length)
    (hz : ∀ c ∈ countMatrix.getD g [], c = 0)
    (hsf : ∀ s, s < (countMatrix.getD g []).length →
      ∃ x, sizeFactors.getD s none = some x ∧ x ≠ 0) :
    (normalizeCountsJS countMatrix sizeFactors).getD g [] =
      List.replicate (countMatrix.getD g []).length (some (0:ℝ)) := by
  unfold normalizeCountsJS
  rw [List.getD_eq_getElem _ _ (by simpa using hg), List.getElem_map,
    mapIdx_eq_mapFrom_zero]
  rw [← List.getD_eq_getElem countMatrix [] hg] at *
  exact mapFrom_jsDiv_zero sizeFactors (countMatrix.getD g []) 0 hz
    (fun s hs1 hs2 => hsf s (by omega))

/-- Claim C4 witness: the all-zero gene of `[[0, 0]]` normalizes to the zero
row under arbitrary well-defined size factors (here `[some 2, some 3]`). -/
theorem gene_without_ratios_zero_row_witness :
    (∀ c ∈ ([[(0:ℝ), 0]] : List (List ℝ)).getD 0 [], c = 0) ∧
    (normalizeCountsJS [[(0:ℝ), 0]] [some 2, some 3]).getD 0 [] =
      List.replicate (([[(0:ℝ), 0]] : List (List ℝ)).getD 0 []).length (some (0:ℝ)) := by
  have hz : ∀ c ∈ ([[(0:ℝ), 0]] : List (List ℝ)).getD 0 [], c = 0 := by
    intro c hc
    simp at hc
    exact hc
  refine ⟨hz, gene_without_ratios_zero_row [[(0:ℝ), 0]] [some 2, some 3] 0
    (by norm_num) hz ?_⟩
  intro s hs
  have hs2 : s < 2 := hs
  interval_cases s
  · exact ⟨2, rfl, by norm_num⟩
  · exact ⟨3, rfl, by norm_num⟩

/-- Claim C4 counterexample: nothing is defensively floored.  For the count
matrix `[[1, 0]]` (one gene, two samples), sample 1 has no valid ratios, so
its size factor is the median of the empty list — NaN in JavaScript, `none`
here — and dividing by it propagates the non-finite value into the
normalized matrix instead of flooring it away. -/
theorem sizeFactors_nan_not_floored :
    calculateSizeFactorsJS [[(1:ℝ), 0]] (calculateGeometricMeans [[(1:ℝ), 0]]) 2 =
      [some 1, none] ∧
    (∃ sf ∈ calculateSizeFactorsJS [[(1:ℝ), 0]] (calculateGeometricMeans [[(1:ℝ), 0]]) 2,
      sf = none) ∧
    normalizeCountsJS [[(1:ℝ), 0]]
        (calculateSizeFactorsJS [[(1:ℝ), 0]] (calculateGeometricMeans [[(1:ℝ), 0]]) 2) =
      [[some 1, none]] := by
  refine ⟨sizeFactorsJS_one_zero, ⟨none, ?_, rfl⟩, ?_⟩
  · rw [sizeFactorsJS_one_zero]
    simp
  · rw [sizeFactorsJS_one_zero]
    exact normalizeJS_one_zero

end RNASeq
